import Mathlib

/-!
Verification of the metrical-canonicalization and accentual-correspondence
engine of the aristophanis-cantica repository (src/stats.py,
src/stats_barys.py, src/src/stats_barys.py, src/comp.py).

Syllable text is modelled at the granularity the code observes: the accent
character sets of stats.py are three disjoint sets of precomposed Greek
letters, so a character is represented by the class it belongs to
(acute-bearing letter, grave-bearing letter, circumflex-bearing letter,
other letter, whitespace, other non-letter). XML `syll` elements become the
`Syll` structure, `l` elements become `Line`, `strophe` elements become
`Strophe`, and a parsed tree becomes `Doc`.
-/

/-- Character classes distinguished by the code: a letter carrying an acute,
a grave, a circumflex, any other letter, a whitespace character, and any
other non-letter character. -/
inductive GChar
  | acuteCh
  | graveCh
  | circumflexCh
  | plainCh
  | spaceCh
  | punctCh
deriving DecidableEq

/-- Letters are exactly the characters kept by normalization. -/
def GChar.isLetter : GChar → Bool
  | .spaceCh => false
  | .punctCh => false
  | _ => true

/-- Modelled from the spec: `normalize_word` comes from the external
`grc_utils` package (imported by stats.py, not part of this repository).
Spec 4.1: "Text is first passed through a normalization step that strips
non-letter punctuation before matching". -/
def normalize_word (t : List GChar) : List GChar :=
  t.filter GChar.isLetter

/-- The `weight` XML attribute: present as "heavy", present as "light", or
absent/other (the code treats anything outside those two strings as
absent). -/
inductive WAttr
  | heavy
  | light
  | absent
deriving DecidableEq

/-- A `syll` element: its text, its tail text (text between this element and
the next sibling), and the boolean attributes read by the code. -/
structure Syll where
  text : List GChar := []
  tail : List GChar := []
  weight : WAttr := WAttr.absent
  anceps : Bool := false
  resolution : Bool := false
  contraction : Bool := false
  brevis_in_longo : Bool := false
deriving DecidableEq

/-- An `l` element: its `n` attribute (possibly absent) and its `syll`
descendants in document order. -/
structure Line where
  n : Option String := none
  sylls : List Syll := []
deriving DecidableEq

/-- `line.get('n') or "???"` as used by `build_units_for_accent`. -/
def Line.line_n (l : Line) : String := l.n.getD "???"

/-- A `strophe` element: its `responsion` attribute and its `l` children. -/
structure Strophe where
  responsion : String := ""
  lines : List Line := []
deriving DecidableEq

/-- A parsed document tree: its strophes (every `l`, hence every `syll`, of
the compiled documents lives inside a strophe). -/
structure Doc where
  strophes : List Strophe := []
deriving DecidableEq

/-- `tree.findall('.//l')` over the whole document, in document order. -/
def Doc.allLines (d : Doc) : List Line :=
  (d.strophes.map Strophe.lines).flatten

/-- Membership of a character of class `c` in the normalized text, i.e.
`any(ch in accents[k] for ch in normalize_word(text))` of stats.py. -/
def hasAccentChar (c : GChar) (t : List GChar) : Bool :=
  (normalize_word t).any (fun ch => decide (ch = c))

/-- `has_acute` of stats.py. -/
def has_acute (s : Syll) : Bool := hasAccentChar GChar.acuteCh s.text

/-- `has_circumflex` of stats_barys.py. -/
def has_circumflex (s : Syll) : Bool := hasAccentChar GChar.circumflexCh s.text

/-- `is_heavy` of stats.py: `syll.get('weight') == 'heavy'`. -/
def is_heavy (s : Syll) : Bool := decide (s.weight = WAttr.heavy)

/-- Abstract metre symbols emitted by `canonical_sylls`: 'heavy', 'light'
or 'anceps'. -/
inductive MWeight
  | heavy
  | light
  | anceps
deriving DecidableEq

/-- One step of `canonical_sylls` (stats.py lines 147-167) for a syllable
that is not merged as part of a resolution pair: anceps, then
contraction-with-heavy, then brevis in longo, then the default weight with
light as fallback. -/
def canonStepW (s : Syll) : List MWeight :=
  if s.anceps then [MWeight.anceps]
  else if s.contraction && decide (s.weight = WAttr.heavy) then [MWeight.light, MWeight.light]
  else if s.brevis_in_longo then [MWeight.heavy]
  else if decide (s.weight = WAttr.heavy) then [MWeight.heavy] else [MWeight.light]

/-- `canonical_sylls` of stats.py: left-to-right scan, merging two
consecutive resolution syllables into one 'heavy' before any other rule. -/
def canonical_sylls : List Syll → List MWeight
  | [] => []
  | [s] => canonStepW s
  | s1 :: s2 :: rest =>
    if s1.resolution && s2.resolution then MWeight.heavy :: canonical_sylls rest
    else canonStepW s1 ++ canonical_sylls (s2 :: rest)

/-- Position agreement in `metrically_responding_lines`: anceps on either
side matches anything, otherwise the symbols must be equal. -/
def weightsMatch : MWeight → MWeight → Bool
  | MWeight.anceps, _ => true
  | _, MWeight.anceps => true
  | w1, w2 => decide (w1 = w2)

/-- `metrically_responding_lines` of stats.py. -/
def metrically_responding_lines (l1 l2 : Line) : Bool :=
  let c1 := canonical_sylls l1.sylls
  let c2 := canonical_sylls l2.sylls
  decide (c1.length = c2.length) && (List.zip c1 c2).all (fun p => weightsMatch p.1 p.2)

/-- Modelled from the spec: `metrically_responding_lines_polystrophic` is
imported `from stats` by src/comp.py and src/src/stats_barys.py but is not
defined in src/stats.py (the defining code is missing from src). Spec 4.3:
the polystrophic variant "requires pairwise agreement among all given
lines". -/
def metrically_responding_lines_polystrophic : List Line → Bool
  | [] => true
  | l :: rest =>
    rest.all (fun l2 => metrically_responding_lines l l2)
      && metrically_responding_lines_polystrophic rest

/-- A 'single' unit dict of `build_units_for_accent`. -/
structure SingleU where
  syll : Syll
  unit_ord : Nat
  line_n : String
deriving DecidableEq

/-- A 'double' unit dict of `build_units_for_accent` (a merged resolution
pair). -/
structure DoubleU where
  syll1 : Syll
  syll2 : Syll
  unit_ord : Nat
  line_n : String
deriving DecidableEq

/-- A unit produced by `build_units_for_accent`. -/
inductive AUnit
  | single (u : SingleU)
  | double (u : DoubleU)
deriving DecidableEq

/-- The `unit_ord` key of a unit. -/
def AUnit.u_ord : AUnit → Nat
  | .single u => u.unit_ord
  | .double u => u.unit_ord

/-- The `line_n` key of a unit. -/
def AUnit.u_line_n : AUnit → String
  | .single u => u.line_n
  | .double u => u.line_n

/-- The scanning loop of `build_units_for_accent`: merge two consecutive
resolution syllables into one double unit, otherwise emit a single unit;
`unit_ordinal` increments once per unit. -/
def buildUnitsAux (nm : String) : Nat → List Syll → List AUnit
  | _, [] => []
  | ord, [s] => [AUnit.single ⟨s, ord, nm⟩]
  | ord, s1 :: s2 :: rest =>
    if s1.resolution && s2.resolution then
      AUnit.double ⟨s1, s2, ord, nm⟩ :: buildUnitsAux nm (ord + 1) rest
    else
      AUnit.single ⟨s1, ord, nm⟩ :: buildUnitsAux nm (ord + 1) (s2 :: rest)

/-- `build_units_for_accent` of stats.py: units start at ordinal 1. -/
def build_units_for_accent (l : Line) : List AUnit :=
  buildUnitsAux l.line_n 1 l.sylls

/-- One accent-match record: the dict appended to an accent list, mapping
each participating `(line_n, unit_ord)` key to the displayed syllable text,
in insertion order. -/
abbrev MatchRec := List ((String × Nat) × List GChar)

/-- The `accent_lists` triple of stats.py: `[acutes, graves, circumflexes]`. -/
structure AccentLists where
  acute : List MatchRec
  grave : List MatchRec
  circumflex : List MatchRec
deriving DecidableEq

/-- The record appended by `do_single_vs_single`: each unit's key mapped to
its raw (unnormalized) syllable text. -/
def singleRec (u1 u2 : SingleU) : MatchRec :=
  [((u1.line_n, u1.unit_ord), u1.syll.text), ((u2.line_n, u2.unit_ord), u2.syll.text)]

/-- `do_single_vs_single` of stats.py: for each of acute, grave and
circumflex (in that dict order), record a match when both normalized texts
contain a character of that category. -/
def do_single_vs_single (u1 u2 : SingleU) (L : AccentLists) : AccentLists :=
  let t1 := u1.syll.text
  let t2 := u2.syll.text
  let La :=
    if hasAccentChar GChar.acuteCh t1 && hasAccentChar GChar.acuteCh t2 then
      { L with acute := L.acute ++ [singleRec u1 u2] }
    else L
  let Lg :=
    if hasAccentChar GChar.graveCh t1 && hasAccentChar GChar.graveCh t2 then
      { La with grave := La.grave ++ [singleRec u1 u2] }
    else La
  if hasAccentChar GChar.circumflexCh t1 && hasAccentChar GChar.circumflexCh t2 then
    { Lg with circumflex := Lg.circumflex ++ [singleRec u1 u2] }
  else Lg

/-- `do_double_vs_double` of stats.py: acute-only; one record when both
pairs have the acute on their first sub-syllable, and independently one
when both have it on their second sub-syllable. -/
def do_double_vs_double (u1 u2 : DoubleU) (L : AccentLists) : AccentLists :=
  let La :=
    if has_acute u1.syll1 && has_acute u2.syll1 then
      { L with acute := L.acute ++
          [[((u1.line_n, u1.unit_ord), u1.syll1.text), ((u2.line_n, u2.unit_ord), u2.syll1.text)]] }
    else L
  if has_acute u1.syll2 && has_acute u2.syll2 then
    { La with acute := La.acute ++
        [[((u1.line_n, u1.unit_ord), u1.syll2.text), ((u2.line_n, u2.unit_ord), u2.syll2.text)]] }
  else La

/-- `do_double_vs_single` of stats.py: no match unless the single is heavy;
acute-only match when the double's second sub-syllable and the single both
carry an acute. -/
def do_double_vs_single (ud : DoubleU) (us : SingleU) (L : AccentLists) : AccentLists :=
  if ¬ is_heavy us.syll then L
  else if has_acute ud.syll2 && has_acute us.syll then
    { L with acute := L.acute ++
        [[((ud.line_n, ud.unit_ord), ud.syll2.text), ((us.line_n, us.unit_ord), us.syll.text)]] }
  else L

/-- The body of the unit loop in
`accentually_responding_syllables_of_line_pair`: skip when the ordinals
differ, otherwise dispatch on the shape combination (single times double is
the reversed double-vs-single call). -/
def stepUnits (L : AccentLists) (p : AUnit × AUnit) : AccentLists :=
  if p.1.u_ord = p.2.u_ord then
    match p.1, p.2 with
    | AUnit.single u1, AUnit.single u2 => do_single_vs_single u1 u2 L
    | AUnit.double u1, AUnit.double u2 => do_double_vs_double u1 u2 L
    | AUnit.double u1, AUnit.single u2 => do_double_vs_single u1 u2 L
    | AUnit.single u1, AUnit.double u2 => do_double_vs_single u2 u1 L
  else L

/-- `accentually_responding_syllables_of_line_pair` of stats.py. The Python
function returns `False` (modelled as `none`) when the lines do not
metrically respond or the unit lists differ in length, and otherwise the
accumulated accent lists. -/
def accentually_responding_syllables_of_line_pair (l1 l2 : Line) : Option AccentLists :=
  if ¬ metrically_responding_lines l1 l2 then none
  else
    let us1 := build_units_for_accent l1
    let us2 := build_units_for_accent l2
    if us1.length ≠ us2.length then none
    else some ((List.zip us1 us2).foldl stepUnits ⟨[], [], []⟩)

/-- `barys_responsion` of src/stats_barys.py: both circumflex, or both
heavy with an acute on each preceding syllable, or one of each. -/
def barys_responsion (s1 s2 : Syll) (p1 p2 : Option Syll) : Bool :=
  let c1 := has_circumflex s1
  let c2 := has_circumflex s2
  let h1 := is_heavy s1
  let h2 := is_heavy s2
  let pa1 := match p1 with | some p => has_acute p | none => false
  let pa2 := match p2 with | some p => has_acute p | none => false
  (c1 && c2) || (h1 && h2 && pa1 && pa2) || (c1 && h2 && pa2) || (c2 && h1 && pa1)

/-- `next_syll_is_light_or_none` of src/stats_barys.py: locate the syllable
in its line by first match (Python `list.index`); false when absent; true
when last in the line or followed by a light syllable. -/
def next_syll_is_light_or_none (curr : Syll) (all_sylls : List Syll) : Bool :=
  match all_sylls.findIdx? (fun x => decide (x = curr)) with
  | none => false
  | some idx =>
    if idx = all_sylls.length - 1 then true
    else
      match all_sylls.get? (idx + 1) with
      | some nxt => decide (nxt.weight = WAttr.light)
      | none => false

/-- `oxys_responsion_single_syllables` of src/stats_barys.py: both acute
and each last-or-followed-by-light. -/
def oxys_responsion_single_syllables (s a : Syll) (L1 L2 : List Syll) : Bool :=
  has_acute s && has_acute a
    && next_syll_is_light_or_none s L1 && next_syll_is_light_or_none a L2

/-- The `get_prev` helper closed over inside `do_barys_single_vs_single`
(and the equivalent inline lookup of the polystrophic matcher). -/
def get_prev (s : Syll) (sylls : List Syll) : Option Syll :=
  match sylls.findIdx? (fun x => decide (x = s)) with
  | none => none
  | some idx => if idx > 0 then sylls.get? (idx - 1) else none

/-- The `get_next` helper closed over inside `do_barys_single_vs_single`
(and the equivalent inline lookup of the polystrophic matcher). -/
def get_next (s : Syll) (sylls : List Syll) : Option Syll :=
  match sylls.findIdx? (fun x => decide (x = s)) with
  | none => none
  | some idx => if idx < sylls.length - 1 then sylls.get? (idx + 1) else none

/-- `get_barys_print_text` of src/stats_barys.py: the syllable text alone
when it has a circumflex, otherwise the previous syllable's text prepended
when present. -/
def get_barys_print_text (curr : Syll) (prev : Option Syll) : List GChar :=
  if has_circumflex curr then curr.text
  else
    match prev with
    | some p => p.text ++ curr.text
    | none => curr.text

/-- `get_oxys_print_text` of src/stats_barys.py: the syllable text with the
next syllable's text appended when present. -/
def get_oxys_print_text (curr : Option Syll) (nxt : Option Syll) : List GChar :=
  match curr with
  | none => []
  | some c =>
    c.text ++ (match nxt with | some n => n.text | none => [])

/-- `do_barys_single_vs_single` of src/stats_barys.py: barys is checked
first; oxys only in the elif branch, so a pair satisfying both is recorded
only as barys. Returns the updated `(barys_list, oxys_list)`. -/
def do_barys_single_vs_single (u1 u2 : SingleU) (BL OL : List MatchRec)
    (L1 L2 : List Syll) : List MatchRec × List MatchRec :=
  let prev_s := get_prev u1.syll L1
  let prev_a := get_prev u2.syll L2
  if barys_responsion u1.syll u2.syll prev_s prev_a then
    (BL ++ [[((u1.line_n, u1.unit_ord), get_barys_print_text u1.syll prev_s),
             ((u2.line_n, u2.unit_ord), get_barys_print_text u2.syll prev_a)]], OL)
  else if oxys_responsion_single_syllables u1.syll u2.syll L1 L2 then
    let next_s := get_next u1.syll L1
    let next_a := get_next u2.syll L2
    (BL, OL ++ [[((u1.line_n, u1.unit_ord), get_oxys_print_text (some u1.syll) next_s),
                 ((u2.line_n, u2.unit_ord), get_oxys_print_text (some u2.syll) next_a)]])
  else (BL, OL)

/-- `do_barys_double_vs_double` of src/stats_barys.py: barys-only, checking
the second sub-syllables with the first sub-syllables as previous; the oxys
list is never touched. -/
def do_barys_double_vs_double (u1 u2 : DoubleU) (BL OL : List MatchRec) :
    List MatchRec × List MatchRec :=
  if barys_responsion u1.syll2 u2.syll2 (some u1.syll1) (some u2.syll1) then
    (BL ++ [[((u1.line_n, u1.unit_ord), get_barys_print_text u1.syll2 (some u1.syll1)),
             ((u2.line_n, u2.unit_ord), get_barys_print_text u2.syll2 (some u2.syll1))]], OL)
  else (BL, OL)

/-- `do_barys_double_vs_single` of src/stats_barys.py: barys-only on the
double's second sub-syllable versus the single (whose previous syllable is
passed as None); the oxys list is never touched. -/
def do_barys_double_vs_single (ud : DoubleU) (us : SingleU) (BL OL : List MatchRec) :
    List MatchRec × List MatchRec :=
  if barys_responsion ud.syll2 us.syll (some ud.syll1) none then
    (BL ++ [[((ud.line_n, ud.unit_ord), get_barys_print_text ud.syll2 (some ud.syll1)),
             ((us.line_n, us.unit_ord), us.syll.text)]], OL)
  else (BL, OL)

/-- The body of the unit loop in
`barys_accentually_responding_syllables_of_line_pair`: skip on ordinal
mismatch, otherwise dispatch on shape. -/
def stepBarysUnits (L1 L2 : List Syll) (acc : List MatchRec × List MatchRec)
    (p : AUnit × AUnit) : List MatchRec × List MatchRec :=
  if p.1.u_ord = p.2.u_ord then
    match p.1, p.2 with
    | AUnit.single u1, AUnit.single u2 => do_barys_single_vs_single u1 u2 acc.1 acc.2 L1 L2
    | AUnit.double u1, AUnit.double u2 => do_barys_double_vs_double u1 u2 acc.1 acc.2
    | AUnit.double u1, AUnit.single u2 => do_barys_double_vs_single u1 u2 acc.1 acc.2
    | AUnit.single u1, AUnit.double u2 => do_barys_double_vs_single u2 u1 acc.1 acc.2
  else acc

/-- `barys_accentually_responding_syllables_of_line_pair` of
src/stats_barys.py: `False` (modelled `none`) when the lines do not
metrically respond or the unit counts differ, otherwise
`[barys_list, oxys_list]`. -/
def barys_accentually_responding_syllables_of_line_pair (l1 l2 : Line) :
    Option (List MatchRec × List MatchRec) :=
  if ¬ metrically_responding_lines l1 l2 then none
  else
    let us1 := build_units_for_accent l1
    let us2 := build_units_for_accent l2
    if us1.length ≠ us2.length then none
    else some ((List.zip us1 us2).foldl (stepBarysUnits l1.sylls l2.sylls) ([], []))

/-- The syllable a unit contributes to polystrophic barys/oxys matching:
`u['syll'] if u['type'] == 'single' else u['syll2']`
(src/src/stats_barys.py line 327). -/
def polySyllOf : AUnit → Syll
  | AUnit.single u => u.syll
  | AUnit.double u => u.syll2

/-- One participant of a unit position in the polystrophic matcher: its
unit, its owning line, the contributed syllable, and that syllable's
previous and next neighbours in the line's raw syllable list. -/
structure PolyEntry where
  unit : AUnit
  line : Line
  syll : Syll
  prev : Option Syll
  nxt : Option Syll
deriving DecidableEq

/-- The per-position data gathered by
`barys_accentually_responding_syllables_of_lines` (src/src/stats_barys.py
lines 320-338): the unit of each line at index `idx`, paired with its line,
contributed syllable, and raw-order neighbours. -/
def polyEntries (all_units : List (List AUnit × Line)) (idx : Nat) : List PolyEntry :=
  (all_units.filterMap (fun ul => (ul.1.get? idx).map (fun u => (u, ul.2)))).map
    (fun p =>
      let s := polySyllOf p.1
      ⟨p.1, p.2, s, get_prev s p.2.sylls, get_next s p.2.sylls⟩)

/-- The body of the position loop of
`barys_accentually_responding_syllables_of_lines`: the barys check and the
oxys check are two independent `if` statements (not `elif`), each comparing
every participant against the first line's participant. -/
def stepPolyBarys (all_units : List (List AUnit × Line))
    (acc : List MatchRec × List MatchRec) (idx : Nat) :
    List MatchRec × List MatchRec :=
  match polyEntries all_units idx with
  | [] => acc
  | e0 :: es =>
    let entries := e0 :: es
    let barysOK := entries.all (fun e => barys_responsion e.syll e0.syll e.prev e0.prev)
    let oxysOK := entries.all
      (fun e => oxys_responsion_single_syllables e.syll e0.syll e.line.sylls e0.line.sylls)
    let bl :=
      if barysOK then
        acc.1 ++ [entries.map
          (fun e => ((e.unit.u_line_n, e.unit.u_ord), get_barys_print_text e.syll e.prev))]
      else acc.1
    let ol :=
      if oxysOK then
        acc.2 ++ [entries.map
          (fun e => ((e.unit.u_line_n, e.unit.u_ord), get_oxys_print_text (some e.syll) e.nxt))]
      else acc.2
    (bl, ol)

/-- `barys_accentually_responding_syllables_of_lines` of
src/src/stats_barys.py (the polystrophic n-way matcher). On an empty line
tuple the Python raises IndexError at `unit_counts[0]`; that and the two
`return False` branches are modelled as `none`. -/
def barys_accentually_responding_syllables_of_lines (lines : List Line) :
    Option (List MatchRec × List MatchRec) :=
  if ¬ metrically_responding_lines_polystrophic lines then none
  else
    match lines with
    | [] => none
    | l0 :: _ =>
      let all_units := lines.map (fun l => (build_units_for_accent l, l))
      let n0 := (build_units_for_accent l0).length
      if all_units.any (fun ul => ul.1.length ≠ n0) then none
      else some ((List.range n0).foldl (stepPolyBarys all_units) ([], []))

/-- The document-order syllable occurrences used by `count_all_barys_oxys`
(src/stats_barys.py lines 54-59): every syllable of the tree in document
order, paired with the syllable list of its own line. -/
def docSyllOcc (d : Doc) : List (Syll × List Syll) :=
  (d.allLines.map (fun l => l.sylls.map (fun s => (s, l.sylls)))).flatten

/-- The previous syllable taken by `count_all_barys_oxys`:
`None if i == 0 else all_sylls[i-1]`, in document order across line
boundaries. -/
def docPrev (occ : List (Syll × List Syll)) (i : Nat) : Option Syll :=
  if i = 0 then none else (occ.get? (i - 1)).map Prod.fst

/-- The potential-barys test of `count_all_barys_oxys` for the syllable at
document index `i`: circumflex, or heavy with the document-order previous
syllable carrying an acute. -/
def doc_barys_pot (occ : List (Syll × List Syll)) (i : Nat) (s : Syll) : Bool :=
  has_circumflex s
    || (is_heavy s && (match docPrev occ i with | some p => has_acute p | none => false))

/-- `count_all_barys_oxys` of src/stats_barys.py: one pass over all
document syllables, counting potential barys (circumflex, or heavy with
document-order previous acute) and potential oxys (acute and
last-in-line-or-followed-by-light, the next syllable being looked up within
the line). Returns `(barys, oxys)`. -/
def count_all_barys_oxys (d : Doc) : Nat × Nat :=
  let occ := docSyllOcc d
  ((occ.enum.countP (fun p => doc_barys_pot occ p.1 p.2.1)),
   (occ.countP (fun p => has_acute p.1 && next_syll_is_light_or_none p.1 p.2)))

/-- The syllable occurrences visited by `count_all_barys_oxys_canticum`
(src/src/stats_barys.py): the syllables of the strophes carrying the given
responsion id, paired with their own line's syllable list. -/
def canticumSyllOcc (d : Doc) (r : String) : List (Syll × List Syll) :=
  (((d.strophes.filter (fun st => decide (st.responsion = r))).map
      (fun st => (st.lines.map (fun l => l.sylls.map (fun s => (s, l.sylls)))).flatten)).flatten)

/-- The potential-barys test of `count_all_barys_oxys_canticum`: the
syllable is located in its own line by first match (`line_sylls.index`);
a lookup failure skips the syllable; the previous syllable is taken within
the line. -/
def canticum_barys_pot (ls : List Syll) (s : Syll) : Bool :=
  match ls.findIdx? (fun x => decide (x = s)) with
  | none => false
  | some idx =>
    let prev := if idx > 0 then ls.get? (idx - 1) else none
    has_circumflex s
      || (is_heavy s && (match prev with | some p => has_acute p | none => false))

/-- The potential-oxys test of `count_all_barys_oxys_canticum` (the index
lookup must succeed, then acute and last-or-followed-by-light). -/
def canticum_oxys_pot (ls : List Syll) (s : Syll) : Bool :=
  match ls.findIdx? (fun x => decide (x = s)) with
  | none => false
  | some _ => has_acute s && next_syll_is_light_or_none s ls

/-- `count_all_barys_oxys_canticum` of src/src/stats_barys.py: like
`count_all_barys_oxys` but restricted to one responsion id and taking the
previous syllable within the syllable's own line. -/
def count_all_barys_oxys_canticum (d : Doc) (r : String) : Nat × Nat :=
  let occ := canticumSyllOcc d r
  (occ.countP (fun p => canticum_barys_pot p.2 p.1),
   occ.countP (fun p => canticum_oxys_pot p.2 p.1))

/-- The melodic contour labels of src/comp.py: 'UP', 'UP-G', 'DN', 'DN-A'
and 'N'. -/
inductive Contour
  | UP
  | UPG
  | DN
  | DNA
  | N
deriving DecidableEq

/-- `get_contours_line` of src/comp.py. The loop body evaluates
`next_syll.get('resolution')` (comp.py line 35) unconditionally; on the
final iteration `next_syll` is `None`, so the call raises AttributeError
for every line with at least one syllable. On an empty syllable list the
loop never runs and the empty contour list is returned. Every statement
executed before the raise only updates local state that the propagating
exception discards, so this captures the function's observable behaviour. -/
def get_contours_line (l : Line) : Except String (List Contour) :=
  if l.sylls.isEmpty then Except.ok [] else Except.error "AttributeError"

/-- The length of `merged_syllables` built by `all_contours_line`
(src/comp.py lines 100-116): the same resolution-merge scan as the unit
builder; only the length of the merged list is ever consulted. -/
def mergedCount : List Syll → Nat
  | [] => 0
  | [_] => 1
  | s1 :: s2 :: rest =>
    if s1.resolution && s2.resolution then 1 + mergedCount rest
    else 1 + mergedCount (s2 :: rest)

/-- Python `zip(*rows)` semantics as used for `grouped_contours` in
`all_contours_line`: transpose, truncating at the shortest row; `zip()` of
no rows is empty. -/
def pyZip (rows : List (List Contour)) : List (List Contour) :=
  match rows with
  | [] => []
  | r0 :: rest =>
    if h : (r0 :: rest).any (fun r => r.isEmpty) then []
    else (r0 :: rest).filterMap List.head? :: pyZip ((r0 :: rest).map List.tail)
termination_by (rows.headD []).length
decreasing_by
  simp only [List.map_cons, List.headD_cons]
  simp only [List.any_cons, Bool.or_eq_true, not_or] at h
  cases r0 with
  | nil => simp [List.isEmpty] at h
  | cons a as => simp [List.tail_cons]

/-- `all_contours_line` of src/comp.py: gate on polystrophic metrical
responsion (raising ValueError otherwise), compute per-line contours (which
raises inside `get_contours_line` for any non-empty line), index
`merged_syllables_per_line[0]` (IndexError when called with no lines),
check the merged syllable counts, and transpose the flat per-line contour
lists. The transposition uses the unmerged flat lists, so the positions are
lists of single contours and the resolved-sublist branches of
`compatibility_line` are unreachable. -/
def all_contours_line (lines : List Line) : Except String (List (List Contour)) :=
  if ¬ metrically_responding_lines_polystrophic lines then Except.error "ValueError"
  else
    match lines.mapM get_contours_line with
    | Except.error e => Except.error e
    | Except.ok contours =>
      match lines with
      | [] => Except.error "IndexError"
      | l0 :: _ =>
        if lines.all (fun l => mergedCount l.sylls = mergedCount l0.sylls) then
          Except.ok (pyZip contours)
        else Except.error "ValueError"

/-- The first membership test of the position loop of `compatibility_line`:
`strophe in ['UP', 'UP-G', 'N']`. -/
def contourUpClass (c : Contour) : Bool :=
  match c with
  | Contour.UP => true
  | Contour.UPG => true
  | Contour.N => true
  | _ => false

/-- The second membership test: `strophe in ['DN', 'DN-A', 'N']` (reached
only when the first test failed, so 'N' is in practice claimed by the up
bucket). -/
def contourDownClass (c : Contour) : Bool :=
  match c with
  | Contour.DN => true
  | Contour.DNA => true
  | Contour.N => true
  | _ => false

/-- The per-position ratio computed (and then discarded) by
`compatibility_line`: the larger bucket over the number of participants. -/
def position_ratio (pos : List Contour) : ℚ :=
  let up := pos.filter contourUpClass
  let down := pos.filter (fun c => !contourUpClass c && contourDownClass c)
  ((max up.length down.length : ℕ) : ℚ) / (pos.length : ℚ)

/-- Python `combined.split()` on the modelled text: maximal whitespace-free
nonempty words. -/
def splitWords (t : List GChar) : List (List GChar) :=
  (t.splitOnP (fun c => decide (c = GChar.spaceCh))).filter (fun w => !w.isEmpty)

/-- `restore_text` of src/visualize.py on a line of `syll` children:
concatenate each syllable's text and tail, then normalize whitespace
(`' '.join(combined.split())`). -/
def restore_text (l : Line) : List GChar :=
  List.intercalate [GChar.spaceCh] (splitWords ((l.sylls.map (fun s => s.text ++ s.tail)).flatten))

/-- `compatibility_line` of src/comp.py. The opening print loop evaluates
`restore_text(line)[30]` for every line, raising IndexError when a restored
text has at most 30 characters. After the position loop computes its
ratios, the function body ends without a `return` statement, so a
successful call evaluates to Python `None` (modelled `Except.ok none`) and
never to the list of ratios its docstring describes. -/
def compatibility_line (lines : List Line) : Except String (Option (List ℚ)) :=
  if lines.any (fun l => decide ((restore_text l).length ≤ 30)) then Except.error "IndexError"
  else
    match all_contours_line lines with
    | Except.error e => Except.error e
    | Except.ok positions =>
      let _ratios := positions.map position_ratio
      Except.ok none

/-- A pair of consecutive syllables both marked `resolution="True"`. -/
def hasResPair : List Syll → Bool
  | [] => false
  | [_] => false
  | s1 :: s2 :: rest => (s1.resolution && s2.resolution) || hasResPair (s2 :: rest)

/-- A plain heavy syllable. -/
def exHeavy : Syll := { weight := WAttr.heavy }

/-- A plain light syllable. -/
def exLight : Syll := { weight := WAttr.light }

/-- An anceps syllable. -/
def exAnceps : Syll := { anceps := true }

/-- A light resolution syllable. -/
def exRes : Syll := { weight := WAttr.light, resolution := true }

/-- A light syllable whose text carries an acute. -/
def exAcuteLight : Syll := { text := [GChar.acuteCh], weight := WAttr.light }

/-- A heavy syllable whose text carries an acute. -/
def exAcuteHeavy : Syll := { text := [GChar.acuteCh], weight := WAttr.heavy }

/-- A heavy syllable marked `contraction="True"`. -/
def exContractionHeavy : Syll := { weight := WAttr.heavy, contraction := true }

/-- A line consisting of one heavy contraction syllable (canonical weights:
two lights, but a single accent unit). -/
def c1_lineA : Line := { n := some "11", sylls := [exContractionHeavy] }

/-- A line of two plain light syllables (canonical weights: two lights, two
accent units). -/
def c1_lineB : Line := { n := some "12", sylls := [exLight, exLight] }

/-- A contraction-free line, heavy then light. -/
def c1w_lineA : Line := { n := some "13", sylls := [exHeavy, exLight] }

/-- A second contraction-free line, heavy then light. -/
def c1w_lineB : Line := { n := some "14", sylls := [exHeavy, exLight] }

/-- A one-syllable heavy line. -/
def c2w_lineA : Line := { n := some "21", sylls := [exHeavy] }

/-- A one-syllable light line (does not respond to `c2w_lineA`). -/
def c2w_lineB : Line := { n := some "22", sylls := [exLight] }

/-- A line whose single syllable has 31 plain characters of text, so the
debug print of `compatibility_line` does not raise, and the crash inside
`get_contours_line` is reached. -/
def c3_line : Line :=
  { n := some "31", sylls := [{ text := List.replicate 31 GChar.plainCh, weight := WAttr.light }] }

/-- First line of the polystrophic barys/oxys counterexample: an acute
light syllable followed by an acute heavy line-final syllable (the second
unit satisfies both the n-way barys and the n-way oxys criteria). -/
def c4_lineA : Line := { n := some "41", sylls := [exAcuteLight, exAcuteHeavy] }

/-- Second line of the polystrophic counterexample, metrically identical. -/
def c4_lineB : Line := { n := some "42", sylls := [exAcuteLight, exAcuteHeavy] }

/-- A single unit over the acute heavy syllable of `c4_lineA`, at ordinal 2. -/
def c4w_u1 : SingleU := ⟨exAcuteHeavy, 2, "41"⟩

/-- A single unit over the acute heavy syllable of `c4_lineB`, at ordinal 2. -/
def c4w_u2 : SingleU := ⟨exAcuteHeavy, 2, "42"⟩

/-- A double unit whose second sub-syllable carries the acute. -/
def c5_d : DoubleU := ⟨exLight, exAcuteLight, 1, "51"⟩

/-- A single unit over an acute heavy syllable, same ordinal as `c5_d`. -/
def c5_s : SingleU := ⟨exAcuteHeavy, 1, "52"⟩

/-- Resolution pair A of the cross-position case: [accented, plain]. -/
def c6_cross1 : DoubleU := ⟨exAcuteLight, exLight, 3, "61"⟩

/-- Resolution pair B of the cross-position case: [plain, accented]. -/
def c6_cross2 : DoubleU := ⟨exLight, exAcuteLight, 3, "62"⟩

/-- A raw syllable list whose first syllable is acute and followed by a
light syllable. -/
def c7_L1 : List Syll := [exAcuteLight, exLight]

/-- A raw syllable list whose last syllable is acute and heavy. -/
def c7_L2 : List Syll := [exLight, exAcuteHeavy]

/-- A line whose only syllable carries an acute (line-final, so it counts
as potential oxys). -/
def c9_lineA : Line := { n := some "91", sylls := [exAcuteLight] }

/-- A line whose only (hence line-initial) syllable is heavy with no
accent. -/
def c9_lineB : Line := { n := some "92", sylls := [exHeavy] }

/-- A document in which the line-initial `exHeavy` of the second line is
immediately preceded, in document order, by the acute final syllable of the
first line. -/
def c9_doc : Doc := { strophes := [{ responsion := "r", lines := [c9_lineA, c9_lineB] }] }

/-- A one-syllable all-heavy line. -/
def c10_lineA : Line := { n := some "101", sylls := [exHeavy] }

/-- A one-syllable all-anceps line. -/
def c10_lineB : Line := { n := some "102", sylls := [exAnceps] }

/-- A one-syllable all-light line. -/
def c10_lineC : Line := { n := some "103", sylls := [exLight] }

/-- A line with a resolution pair (canonical weights shorter than raw). -/
def c8_line : Line := { n := some "81", sylls := [exRes, exRes] }

theorem canonStepW_length (s : Syll) (hs : s.contraction = false) :
    (canonStepW s).length = 1 := by
  unfold canonStepW
  rw [hs]
  split_ifs <;> simp_all

theorem canon_len_eq_units_len (nm : String) :
    ∀ xs : List Syll, (∀ s ∈ xs, s.contraction = false) →
      ∀ ord : Nat, (canonical_sylls xs).length = (buildUnitsAux nm ord xs).length := by
  intro xs
  induction xs using canonical_sylls.induct with
  | case1 => intro _ _; rfl
  | case2 s =>
    intro h ord
    simp [canonical_sylls, buildUnitsAux, canonStepW_length s (h s (by simp))]
  | case3 s1 s2 rest hres ih =>
    intro h ord
    simp only [canonical_sylls, buildUnitsAux, hres, if_true, List.length_cons]
    have := ih (fun s hs => h s (by simp [hs])) (ord + 1)
    omega
  | case4 s1 s2 rest hres ih =>
    intro h ord
    have h1 := canonStepW_length s1 (h s1 (by simp))
    have h2 := ih (fun s hs => h s (by simp at hs ⊢; tauto)) (ord + 1)
    simp [canonical_sylls, buildUnitsAux, hres, List.length_append, h1, h2]
    omega

/-- C10: the metrical responsion predicate is not transitive: an all-heavy
line responds to an all-anceps line, the all-anceps line responds to an
all-light line, but the all-heavy and all-light lines do not respond. -/
theorem c10_responsion_not_transitive :
    ∃ A B C : Line,
      metrically_responding_lines A B = true ∧
      metrically_responding_lines B C = true ∧
      metrically_responding_lines A C = false :=
  ⟨c10_lineA, c10_lineB, c10_lineC, by decide⟩

/-- C1 counterexample: a one-syllable heavy-contraction line and a
two-light-syllable line metrically respond (both canonicalize to two
lights), yet their accent-unit lists have lengths 1 and 2, so responding
lines need not have unit lists of equal length. -/
theorem c1_counterexample_contraction :
    metrically_responding_lines c1_lineA c1_lineB = true ∧
    (build_units_for_accent c1_lineA).length = 1 ∧
    (build_units_for_accent c1_lineB).length = 2 := by
  decide

/-- C1 amended: for metrically responding lines neither of which contains
a contraction syllable, the accent-unit lists have equal length. -/
theorem c1_units_length_eq_of_no_contraction (l1 l2 : Line)
    (h1 : ∀ s ∈ l1.sylls, s.contraction = false)
    (h2 : ∀ s ∈ l2.sylls, s.contraction = false)
    (hr : metrically_responding_lines l1 l2 = true) :
    (build_units_for_accent l1).length = (build_units_for_accent l2).length := by
  have hc : (canonical_sylls l1.sylls).length = (canonical_sylls l2.sylls).length := by
    unfold metrically_responding_lines at hr
    simp only [Bool.and_eq_true, decide_eq_true_eq] at hr
    exact hr.1
  unfold build_units_for_accent
  rw [← canon_len_eq_units_len l1.line_n l1.sylls h1 1,
      ← canon_len_eq_units_len l2.line_n l2.sylls h2 1]
  exact hc

/-- C1 witness: the amended theorem applied to two concrete
contraction-free responding lines. -/
theorem c1_units_length_eq_witness :
    (build_units_for_accent c1w_lineA).length = (build_units_for_accent c1w_lineB).length :=
  c1_units_length_eq_of_no_contraction c1w_lineA c1w_lineB (by decide) (by decide) (by decide)

/-- C2: on lines that do not metrically respond, both the accentual unit
matcher and the barys/oxys line matcher return the distinguished error
value (Python `False`, modelled `none`) without producing any match
structure. -/
theorem c2_not_responding_returns_error (l1 l2 : Line)
    (h : metrically_responding_lines l1 l2 = false) :
    accentually_responding_syllables_of_line_pair l1 l2 = none ∧
    barys_accentually_responding_syllables_of_line_pair l1 l2 = none := by
  unfold accentually_responding_syllables_of_line_pair
    barys_accentually_responding_syllables_of_line_pair
  simp [h]

/-- C2 witness: a heavy line and a light line do not respond, and both
matchers return the error value on them. -/
theorem c2_not_responding_witness :
    metrically_responding_lines c2w_lineA c2w_lineB = false ∧
    accentually_responding_syllables_of_line_pair c2w_lineA c2w_lineB = none ∧
    barys_accentually_responding_syllables_of_line_pair c2w_lineA c2w_lineB = none :=
  ⟨by decide,
   (c2_not_responding_returns_error c2w_lineA c2w_lineB (by decide)).1,
   (c2_not_responding_returns_error c2w_lineA c2w_lineB (by decide)).2⟩

/-- C3: `compatibility_line` never returns the list of per-position
compatibility ratios its docstring promises: every call either raises
(modelled as an error) or evaluates to Python `None` (`ok none`), because
the function body has no `return` statement; in particular, on a line with
one syllable and text long enough to pass the debug print, the call raises
AttributeError inside `get_contours_line`. -/
theorem c3_compatibility_line_never_returns_ratios :
    (∀ lines : List Line,
      compatibility_line lines = Except.ok none ∨
      ∃ e, compatibility_line lines = Except.error e) ∧
    compatibility_line [c3_line] = Except.error "AttributeError" := by
  refine ⟨?_, rfl⟩
  · intro lines
    unfold compatibility_line
    by_cases hidx : lines.any (fun l => decide ((restore_text l).length ≤ 30))
    · exact Or.inr ⟨"IndexError", by simp [hidx]⟩
    · cases hac : all_contours_line lines with
      | error e => exact Or.inr ⟨e, by simp [hidx, hac]⟩
      | ok positions => exact Or.inl (by simp [hidx, hac])

/-- C4 counterexample: in the polystrophic n-way matcher the barys check
and the oxys check are independent `if` statements, so the second unit of
these two identical lines (heavy, acute, line-final, preceded by an acute)
is recorded both as a barys match and as an oxys match at the same
ordinal. -/
theorem c4_polystrophic_records_both :
    barys_accentually_responding_syllables_of_lines [c4_lineA, c4_lineB] =
      some ([[(("41", 2), [GChar.acuteCh, GChar.acuteCh]),
              (("42", 2), [GChar.acuteCh, GChar.acuteCh])]],
            [[(("41", 2), [GChar.acuteCh]), (("42", 2), [GChar.acuteCh])]]) := by
  rfl

/-- C4 amended: in the pairwise matcher barys is checked first and a unit
satisfying barys is recorded only as barys (the oxys list is untouched);
in the polystrophic n-way matcher the two checks are independent, and a
unit position satisfying both criteria is recorded in both lists, as on the
concrete two-line input. -/
theorem c4_barys_priority_amended :
    (∀ (u1 u2 : SingleU) (BL OL : List MatchRec) (L1 L2 : List Syll),
      barys_responsion u1.syll u2.syll (get_prev u1.syll L1) (get_prev u2.syll L2) = true →
        (do_barys_single_vs_single u1 u2 BL OL L1 L2).2 = OL ∧
        (do_barys_single_vs_single u1 u2 BL OL L1 L2).1 =
          BL ++ [[((u1.line_n, u1.unit_ord), get_barys_print_text u1.syll (get_prev u1.syll L1)),
                  ((u2.line_n, u2.unit_ord), get_barys_print_text u2.syll (get_prev u2.syll L2))]]) ∧
    (barys_accentually_responding_syllables_of_lines [c4_lineA, c4_lineB]).map
        (fun r => (r.1.length, r.2.length)) = some (1, 1) := by
  constructor
  · intro u1 u2 BL OL L1 L2 hb
    unfold do_barys_single_vs_single
    simp [hb]
  · decide

/-- C4 witness: the pairwise priority statement applied to a concrete
barys-responding unit pair: the oxys list stays empty. -/
theorem c4_barys_priority_witness :
    barys_responsion c4w_u1.syll c4w_u2.syll (get_prev c4w_u1.syll c4_lineA.sylls)
        (get_prev c4w_u2.syll c4_lineB.sylls) = true ∧
    (do_barys_single_vs_single c4w_u1 c4w_u2 [] [] c4_lineA.sylls c4_lineB.sylls).2 = [] :=
  ⟨by decide,
   (c4_barys_priority_amended.1 c4w_u1 c4w_u2 [] [] c4_lineA.sylls c4_lineB.sylls (by decide)).1⟩

/-- C5: at equal ordinals, the double-versus-single and single-versus-double
shapes behave identically: an acute record is appended exactly when the
single syllable is heavy, the single carries an acute and the double's
second sub-syllable carries an acute; the grave and circumflex lists are
never touched. -/
theorem c5_double_single_acute_only (d : DoubleU) (s : SingleU) (L : AccentLists)
    (h : d.unit_ord = s.unit_ord) :
    stepUnits L (AUnit.double d, AUnit.single s) = stepUnits L (AUnit.single s, AUnit.double d) ∧
    (stepUnits L (AUnit.double d, AUnit.single s)).acute =
      L.acute ++
        (if is_heavy s.syll && has_acute s.syll && has_acute d.syll2 then
          [[((d.line_n, d.unit_ord), d.syll2.text), ((s.line_n, s.unit_ord), s.syll.text)]]
        else []) ∧
    (stepUnits L (AUnit.double d, AUnit.single s)).grave = L.grave ∧
    (stepUnits L (AUnit.double d, AUnit.single s)).circumflex = L.circumflex := by
  unfold stepUnits AUnit.u_ord do_double_vs_single
  cases hh : is_heavy s.syll <;> cases ha : has_acute s.syll <;> cases hd : has_acute d.syll2 <;>
    simp [h, hh, ha, hd]

/-- C5 witness: the characterization applied at a concrete double/single
pair whose condition holds. -/
theorem c5_double_single_witness :
    c5_d.unit_ord = c5_s.unit_ord ∧
    (stepUnits ⟨[], [], []⟩ (AUnit.double c5_d, AUnit.single c5_s)).grave = [] :=
  ⟨by decide, (c5_double_single_acute_only c5_d c5_s ⟨[], [], []⟩ (by decide)).2.2.1⟩

/-- C6: at equal ordinals, double-versus-double appends an acute record for
the first sub-position exactly when both firsts are acute, then one for the
second sub-position exactly when both seconds are acute; grave and
circumflex are never evaluated; in particular the cross-position pairs
[accented, plain] versus [plain, accented] leave the lists unchanged. -/
theorem c6_double_double_same_subposition :
    (∀ (d1 d2 : DoubleU) (L : AccentLists), d1.unit_ord = d2.unit_ord →
      (stepUnits L (AUnit.double d1, AUnit.double d2)).acute =
        (L.acute ++
          (if has_acute d1.syll1 && has_acute d2.syll1 then
            [[((d1.line_n, d1.unit_ord), d1.syll1.text), ((d2.line_n, d2.unit_ord), d2.syll1.text)]]
          else [])) ++
          (if has_acute d1.syll2 && has_acute d2.syll2 then
            [[((d1.line_n, d1.unit_ord), d1.syll2.text), ((d2.line_n, d2.unit_ord), d2.syll2.text)]]
          else []) ∧
      (stepUnits L (AUnit.double d1, AUnit.double d2)).grave = L.grave ∧
      (stepUnits L (AUnit.double d1, AUnit.double d2)).circumflex = L.circumflex) ∧
    (∀ M : AccentLists, stepUnits M (AUnit.double c6_cross1, AUnit.double c6_cross2) = M) := by
  constructor
  · intro d1 d2 L h
    unfold stepUnits AUnit.u_ord do_double_vs_double
    cases h1 : has_acute d1.syll1 <;> cases h2 : has_acute d2.syll1 <;>
      cases h3 : has_acute d1.syll2 <;> cases h4 : has_acute d2.syll2 <;>
        simp [h, h1, h2, h3, h4]
  · intro M
    have h1 : has_acute exLight = false := by decide
    have h2 : has_acute exAcuteLight = true := by decide
    unfold stepUnits AUnit.u_ord do_double_vs_double c6_cross1 c6_cross2
    simp [h1, h2]

/-- C6 witness: the first-sub-position characterization applied at a
concrete pair of doubles with equal ordinals. -/
theorem c6_double_double_witness :
    c6_cross1.unit_ord = c6_cross2.unit_ord ∧
    (stepUnits ⟨[], [], []⟩ (AUnit.double c6_cross1, AUnit.double c6_cross2)).grave = [] :=
  ⟨by decide,
   ((c6_double_double_same_subposition.1 c6_cross1 c6_cross2 ⟨[], [], []⟩ (by decide)).2.1)⟩

theorem next_syll_is_light_iff (s : Syll) (L : List Syll) (i : Nat)
    (h : L.findIdx? (fun x => decide (x = s)) = some i) :
    next_syll_is_light_or_none s L = true ↔
      (i + 1 = L.length ∨ ∃ nxt, L.get? (i + 1) = some nxt ∧ nxt.weight = WAttr.light) := by
  have hlt : i < L.length := (List.findIdx?_eq_some_iff_findIdx_eq.mp h).1
  unfold next_syll_is_light_or_none
  simp only [h]
  by_cases hi : i = L.length - 1
  · rw [if_pos hi]
    simp only [true_iff]
    left
    omega
  · rw [if_neg hi]
    have hi1 : i + 1 < L.length := by omega
    cases hn : L.get? (i + 1) with
    | none =>
      have := List.get?_eq_none.mp hn
      omega
    | some nxt =>
      constructor
      · intro hw
        exact Or.inr ⟨nxt, rfl, of_decide_eq_true hw⟩
      · rintro (hc | ⟨nxt2, hnn, hw⟩)
        · omega
        · cases Option.some.inj hnn
          exact decide_eq_true hw

/-- C7: the oxys predicate on two single syllables, located at (first-match)
indices `i` and `j` of their raw lines, holds exactly when both carry an
acute and each is line-final or immediately followed by a light syllable;
so a syllable followed by a heavy syllable fails the predicate however its
counterpart fares. -/
theorem c7_oxys_iff (s a : Syll) (L1 L2 : List Syll) (i j : Nat)
    (h1 : L1.findIdx? (fun x => decide (x = s)) = some i)
    (h2 : L2.findIdx? (fun x => decide (x = a)) = some j) :
    oxys_responsion_single_syllables s a L1 L2 = true ↔
      (has_acute s = true ∧ has_acute a = true ∧
        (i + 1 = L1.length ∨ ∃ nxt, L1.get? (i + 1) = some nxt ∧ nxt.weight = WAttr.light) ∧
        (j + 1 = L2.length ∨ ∃ nxt, L2.get? (j + 1) = some nxt ∧ nxt.weight = WAttr.light)) := by
  unfold oxys_responsion_single_syllables
  simp only [Bool.and_eq_true]
  rw [next_syll_is_light_iff s L1 i h1, next_syll_is_light_iff a L2 j h2]
  tauto

/-- C7 witness: the characterization applied to an acute syllable followed
by a light syllable and an acute line-final syllable. -/
theorem c7_oxys_witness :
    c7_L1.findIdx? (fun x => decide (x = exAcuteLight)) = some 0 ∧
    c7_L2.findIdx? (fun x => decide (x = exAcuteHeavy)) = some 1 ∧
    (oxys_responsion_single_syllables exAcuteLight exAcuteHeavy c7_L1 c7_L2 = true ↔
      (has_acute exAcuteLight = true ∧ has_acute exAcuteHeavy = true ∧
        (0 + 1 = c7_L1.length ∨ ∃ nxt, c7_L1.get? (0 + 1) = some nxt ∧ nxt.weight = WAttr.light) ∧
        (1 + 1 = c7_L2.length ∨ ∃ nxt, c7_L2.get? (1 + 1) = some nxt ∧ nxt.weight = WAttr.light))) :=
  ⟨by decide, by decide,
   c7_oxys_iff exAcuteLight exAcuteHeavy c7_L1 c7_L2 0 1 (by decide) (by decide)⟩

theorem canon_len_le : ∀ xs : List Syll, (∀ s ∈ xs, s.contraction = false) →
    (canonical_sylls xs).length ≤ xs.length := by
  intro xs
  induction xs using canonical_sylls.induct with
  | case1 => intro _; simp [canonical_sylls]
  | case2 s => intro h; simp [canonical_sylls, canonStepW_length s (h s (by simp))]
  | case3 s1 s2 rest hres ih =>
    intro h
    have hle := ih (fun s hs => h s (by simp [hs]))
    simp [canonical_sylls, hres]
    omega
  | case4 s1 s2 rest hres ih =>
    intro h
    have h1 := canonStepW_length s1 (h s1 (by simp))
    have hle := ih (fun s hs => h s (by simp at hs ⊢; tauto))
    simp only [List.length_cons] at hle
    simp [canonical_sylls, hres, h1]
    omega

theorem canon_len_eq_iff : ∀ xs : List Syll, (∀ s ∈ xs, s.contraction = false) →
    ((canonical_sylls xs).length = xs.length ↔ hasResPair xs = false) := by
  intro xs
  induction xs using canonical_sylls.induct with
  | case1 => intro _; simp [canonical_sylls, hasResPair]
  | case2 s => intro h; simp [canonical_sylls, hasResPair, canonStepW_length s (h s (by simp))]
  | case3 s1 s2 rest hres ih =>
    intro h
    have hle := canon_len_le rest (fun s hs => h s (by simp [hs]))
    simp [canonical_sylls, hasResPair, hres, List.length_cons]
    exact Nat.ne_of_lt (Nat.lt_succ_of_le hle)
  | case4 s1 s2 rest hres ih =>
    intro h
    have h1 := canonStepW_length s1 (h s1 (by simp))
    have hiff := ih (fun s hs => h s (by simp at hs ⊢; tauto))
    simp [canonical_sylls, hasResPair, hres, h1, List.length_append, List.length_cons]
    rw [← hiff]
    simp only [List.length_cons]
    omega

/-- C8: for a line with no contraction syllables the canonical weight
sequence is never longer than the raw syllable list, with equality exactly
when the line has no pair of consecutive resolution syllables. -/
theorem c8_canonical_length (l : Line) (h : ∀ s ∈ l.sylls, s.contraction = false) :
    (canonical_sylls l.sylls).length ≤ l.sylls.length ∧
    ((canonical_sylls l.sylls).length = l.sylls.length ↔ hasResPair l.sylls = false) :=
  ⟨canon_len_le l.sylls h, canon_len_eq_iff l.sylls h⟩

/-- C8 witness: the theorem applied to a contraction-free line consisting
of one resolution pair. -/
theorem c8_canonical_length_witness :
    (∀ s ∈ c8_line.sylls, s.contraction = false) ∧
    ((canonical_sylls c8_line.sylls).length ≤ c8_line.sylls.length ∧
     ((canonical_sylls c8_line.sylls).length = c8_line.sylls.length ↔
       hasResPair c8_line.sylls = false)) :=
  ⟨by decide, c8_canonical_length c8_line (by decide)⟩

/-- C9 counterexample: in `c9_doc` the only potential-barys syllable is
`exHeavy`, the first (and only) syllable of its line, counted because the
document-order previous syllable — the final syllable of the preceding
line — carries an acute; so a line-initial syllable without circumflex can
be counted toward the barys denominator. -/
theorem c9_counterexample_cross_line_prev :
    count_all_barys_oxys c9_doc = (1, 1) ∧
    c9_lineB.sylls = [exHeavy] ∧
    has_circumflex exHeavy = false ∧
    doc_barys_pot (docSyllOcc c9_doc) 1 exHeavy = true := by
  refine ⟨rfl, rfl, rfl, rfl⟩

/-- C9 amended: the within-line property holds for the per-canticum
variant (a line-initial syllable without circumflex never passes its
potential-barys test), while in `count_all_barys_oxys` the previous
syllable is taken in document order, so only a syllable at document index 0
is excluded from the heavy-with-preceding-acute route. -/
theorem c9_barys_denominator_amended :
    (∀ (s : Syll) (rest : List Syll), has_circumflex s = false →
      canticum_barys_pot (s :: rest) s = false) ∧
    (∀ (occ : List (Syll × List Syll)) (s : Syll), has_circumflex s = false →
      doc_barys_pot occ 0 s = false) := by
  constructor
  · intro s rest hc
    unfold canticum_barys_pot
    have hf : (s :: rest).findIdx? (fun x => decide (x = s)) = some 0 := by
      simp [List.findIdx?_cons]
    rw [hf]
    simp [hc]
  · intro occ s hc
    unfold doc_barys_pot docPrev
    simp [hc]

/-- C9 witness: both amended statements applied to the accentless heavy
syllable. -/
theorem c9_barys_denominator_witness :
    has_circumflex exHeavy = false ∧
    canticum_barys_pot [exHeavy] exHeavy = false ∧
    doc_barys_pot [] 0 exHeavy = false :=
  ⟨by decide, c9_barys_denominator_amended.1 exHeavy [] (by decide),
   c9_barys_denominator_amended.2 [] exHeavy (by decide)⟩
